import Mathlib

/-!
Verification of the evaluation-merge and token-budgeting pipeline of the
tre-site-audit repository (src/lib/claudeAudit.js, src/lib/preAudit.js,
src/server.js), as a shallow embedding in Lean.

Conventions used throughout:
* JavaScript strings are modelled as Lean `String` where only whole-string
  operations occur, and as `List Char` where the code manipulates text
  character by character (the compressors and the budget allocator).
  `s.length` of a JS string corresponds to `List.length`; all concrete
  inputs below are ASCII so the UTF-16 / code-point distinction is moot.
* JavaScript numbers are modelled as `ℚ` (the code stays within small
  integers and halves, where IEEE doubles are exact).
* Fallible external calls (checker process, judgment API) are modelled by
  passing their outcome in as an explicit argument.
-/

/- ===================================================================
   Part 1: the Judgment Merge Engine (src/lib/claudeAudit.js 520-592,
   `mergeAuditResults`)
   =================================================================== -/

/-- One finding in Claude's returned JSON structure (the per-check objects
of the schema described in SYSTEM_PROMPT, claudeAudit.js 170). -/
structure Finding where
  check : String
  check_en : String
  status : String
  note_no : String
  note_en : String
  details_no : String
  details_en : String
  recommendation_no : String
  recommendation_en : String
  deriving DecidableEq, Repr

/-- One finding produced by the Python pre-audit (fields read by
`mergeAuditResults`, claudeAudit.js 561-571; the note/detail/recommendation
fields may be absent in the JSON, which the code defaults with `|| ''`). -/
structure PreFinding where
  check : String
  check_en : String
  status : String
  note : Option String
  note_en : Option String
  detail : Option String
  detail_en : Option String
  recommendation : Option String
  recommendation_en : Option String
  deriving DecidableEq, Repr

/-- Pre-audit result object as consumed by `runClaudeAudit` /
`mergeAuditResults`: `findings` maps a pre-audit category name to its list
of findings; `_rawCSS` / `_rawJS` are attached by preAudit.js 56-57. -/
structure PreAuditData where
  findings : List (String × List PreFinding)
  rawCSS : String
  rawJS : String
  deriving DecidableEq, Repr

/-- Claude's result structure: the seventeen category arrays, keyed by
(domain, subdomain) as in the JSON schema (e.g. ("accessibility",
"robust")), plus `rest`, which stands for every field the merge never
touches (priorityFixes, customerSummary, executiveSummary). -/
structure ClaudeResult where
  slots : List ((String × String) × List Finding)
  rest : String
  deriving DecidableEq, Repr

/-- Lookup of `merged[domain][subdomain]` (first binding of the key, as in
a JS object, whose keys are unique). -/
def getSlot : List ((String × String) × List Finding) → (String × String) →
    Option (List Finding)
  | [], _ => none
  | (k', v) :: rest, k => if k' = k then some v else getSlot rest k

/-- Assignment `merged[domain][subdomain] = v`: updates the binding in
place (JS objects keep insertion order) or appends a fresh one. -/
def setSlot : List ((String × String) × List Finding) → (String × String) →
    List Finding → List ((String × String) × List Finding)
  | [], k, v => [(k, v)]
  | (k', v') :: rest, k, v =>
      if k' = k then (k, v) :: rest else (k', v') :: setSlot rest k v

/-- JS `String.prototype.toLowerCase` restricted to the ASCII statuses the
pre-audit emits (claudeAudit.js 564). -/
def jsToLower (s : String) : String := String.mk (s.data.map Char.toLower)

/-- Conversion of a pre-audit finding to Claude's format
(claudeAudit.js 561-571). -/
def convertFinding (p : PreFinding) : Finding :=
  { check := p.check
    check_en := p.check_en
    status := jsToLower p.status
    note_no := p.note.getD ""
    note_en := p.note_en.getD ""
    details_no := p.detail.getD ""
    details_en := p.detail_en.getD ""
    recommendation_no := p.recommendation.getD ""
    recommendation_en := p.recommendation_en.getD "" }

/-- Match predicate of claudeAudit.js 574-576:
`f.check === preFind.check || f.check_en === preFind.check_en`. -/
def findingMatches (p : PreFinding) (f : Finding) : Bool :=
  f.check == p.check || f.check_en == p.check_en

/-- Test of claudeAudit.js 580-581: `!status || status === 'na'` (a JS
status that is absent or empty is modelled by `""`). -/
def statusIsOpen (s : String) : Bool := s == "" || s == "na"

/-- Body of the inner `for (const preFind of findings)` loop of
`mergeAuditResults` (claudeAudit.js 556-588) for one pre-audit finding. -/
def mergeOneFinding (fs : List Finding) (p : PreFinding) : List Finding :=
  if p.status == "NEEDS_AI_REVIEW" then fs
  else
    match fs.findIdx? (findingMatches p) with
    | some i =>
      match fs[i]? with
      | some f =>
          if statusIsOpen f.status then fs.set i (convertFinding p) else fs
      | none => fs
    | none => fs ++ [convertFinding p]

/-- The inner loop of `mergeAuditResults` over one category's pre-audit
findings. -/
def mergeFindingsList (fs : List Finding) (ps : List PreFinding) :
    List Finding :=
  ps.foldl mergeOneFinding fs

/-- The `categoryMap` table of claudeAudit.js 524-542, with the
`claudePath` values already split at the dot. -/
def categoryMap : List (String × (String × String)) :=
  [("a11y_perceivable", ("accessibility", "perceivable")),
   ("a11y_operable", ("accessibility", "operable")),
   ("a11y_understandable", ("accessibility", "understandable")),
   ("a11y_robust", ("accessibility", "robust")),
   ("bp_performance", ("bestPractices", "performance")),
   ("bp_security", ("bestPractices", "security")),
   ("bp_seo", ("bestPractices", "seo")),
   ("bp_code", ("bestPractices", "codeQuality")),
   ("ux_nav", ("ux", "navigation")),
   ("ux_content", ("ux", "content")),
   ("ux_interaction", ("ux", "interaction")),
   ("ux_cognitive", ("ux", "cognitiveLoad")),
   ("ui_hierarchy", ("ui", "hierarchy")),
   ("ui_typography", ("ui", "typography")),
   ("ui_color", ("ui", "color")),
   ("ui_spacing", ("ui", "spacing")),
   ("ui_components", ("ui", "components"))]

/-- Body of the outer `for (const [preCategory, findings] of
Object.entries(preAuditData.findings))` loop (claudeAudit.js 545-589):
unknown categories are skipped (`if (!claudePath) continue`), the slot is
created empty when absent (lines 552-553), then the findings are merged
into it. -/
def applyCategory (merged : ClaudeResult) (entry : String × List PreFinding) :
    ClaudeResult :=
  match categoryMap.lookup entry.1 with
  | none => merged
  | some key =>
      let slot := (getSlot merged.slots key).getD []
      { merged with slots := setSlot merged.slots key (mergeFindingsList slot entry.2) }

/-- `mergeAuditResults` (claudeAudit.js 520-592): starts from Claude's
structure and folds every pre-audit category into it. -/
def mergeAuditResults (pre : PreAuditData) (claude : ClaudeResult) :
    ClaudeResult :=
  pre.findings.foldl applyCategory claude

/-- Total number of findings in a result structure (the quantity the
spec's coverage invariant `|MergedResult.findings| == |Checklist|`
speaks about). -/
def totalFindings (c : ClaudeResult) : ℕ :=
  (c.slots.map fun e => e.2.length).sum

/-- Modelled from the spec: the checklist catalog ("a fixed, versioned
catalog" of `ChecklistItem`s, spec §3). The repository has no reified
catalog value — `AUDIT_CRITERIA` (claudeAudit.js 14-157) is prompt text
only, and `mergeAuditResults` never receives the catalog — so a catalog is
modelled as the list of its item identifiers. -/
abbrev Checklist : Type := List String

/-- Size of a checklist catalog. -/
def Checklist.size (c : Checklist) : ℕ := List.length c

/- ===================================================================
   Part 2: evaluation cache and orchestration (claudeAudit.js 11-12,
   217-223, 504-516; preAudit.js 65-71; server.js 46-120)
   =================================================================== -/

/-- Modelled from the spec: the "stable hash" of the cache key
(spec §4.4).  `crypto.createHash('md5')` is library code external to the
repository; it is modelled as an unspecified deterministic function of its
input string (what the claims depend on is only which data feeds it). -/
def md5Hex (s : String) : String := s

/-- Cache key of claudeAudit.js 219:
`url + ':' + crypto.createHash('md5').update(html).digest('hex')`. -/
def cacheKeyOf (url html : String) : String := url ++ ":" ++ md5Hex html

/-- The module-level `auditCache` Map (claudeAudit.js 12), as an
association list (later bindings shadow nothing because a key is inserted
at most once). -/
abbrev AuditCache : Type := List (String × ClaudeResult)

/-- Outcome of one `runClaudeAudit` call: the returned result, the cache
afterwards, and whether the Anthropic API was invoked. -/
structure AuditCallResult where
  result : ClaudeResult
  cache : AuditCache
  invokedClaude : Bool
  deriving DecidableEq, Repr

/-- Cache and merge behaviour of `runClaudeAudit` (claudeAudit.js
217-223 and 504-516).  The parsed JSON that the Anthropic API would
return is passed in as `claudeResponse` (the API is an external
collaborator); on a cache hit the stored result is returned and the API
is not consulted, on a miss the response is merged with the pre-audit
data (when present) and stored under the key. -/
def runClaudeAuditModel (cache : AuditCache) (url html : String)
    (pre : Option PreAuditData) (claudeResponse : ClaudeResult) :
    AuditCallResult :=
  let cacheKey := cacheKeyOf url html
  match List.lookup cacheKey cache with
  | some r => ⟨r, cache, false⟩
  | none =>
      let result := match pre with
        | some p => mergeAuditResults p claudeResponse
        | none => claudeResponse
      ⟨result, (cacheKey, result) :: cache, true⟩

/-- Server-sent events of server.js 20-23 (the `report` of the complete
event is represented by the merged result it is rendered from; HTML
templating is out of scope per spec §1). -/
inductive SseEvent where
  | progress (step : ℕ)
  | complete (result : ClaudeResult)
  | error (message_en : String)
  deriving DecidableEq, Repr

/-- `runPreAudit` (preAudit.js 18-72): the Python checker process is an
external collaborator whose outcome is passed in; on any failure the
wrapper rethrows `Pre-audit failed: ...` (preAudit.js 70). -/
def runPreAuditModel (checkerOutcome : Except String PreAuditData) :
    Except String PreAuditData :=
  match checkerOutcome with
  | .ok d => .ok d
  | .error e => .error ("Pre-audit failed: " ++ e)

/-- The `POST /api/audit` handler (server.js 72-119): progress events 1
and 2 are sent, then `runPreAudit`; a throw anywhere is caught by the
single surrounding try/catch, which emits one `error` event
(`Audit error: ...`, server.js 113-116) and ends the stream.  On success
the Claude stage and the complete event follow. -/
def handleAudit (checkerOutcome : Except String PreAuditData)
    (claudeResponse : ClaudeResult) (url pageHtml : String)
    (cache : AuditCache) : List SseEvent :=
  match runPreAuditModel checkerOutcome with
  | .error msg =>
      [.progress 1, .progress 2, .error ("Audit error: " ++ msg)]
  | .ok pre =>
      let call := runClaudeAuditModel cache url pageHtml (some pre) claudeResponse
      [.progress 1, .progress 2, .progress 3, .progress 4,
       .complete call.result]

/- ===================================================================
   Part 3: the token-budget allocator (claudeAudit.js 330-341, 402-417)
   =================================================================== -/

/-- `outputReserve` (claudeAudit.js 333). -/
def outputReserve : ℕ := 32000

/-- `safetyMargin` (claudeAudit.js 334). -/
def safetyMargin : ℕ := 5000

/-- `maxInputTokens = 200000 - outputReserve - safetyMargin`
(claudeAudit.js 335). -/
def maxInputTokens : ℕ := 200000 - outputReserve - safetyMargin

/-- `promptOverheadTokens` (claudeAudit.js 338). -/
def promptOverheadTokens : ℕ := 2000

/-- `systemTokensEst = Math.ceil((SYSTEM_PROMPT.length +
AUDIT_CRITERIA.length) / 3)` (claudeAudit.js 332), as a function of that
combined length. -/
def systemTokensEst (sysLen : ℕ) : ℕ := (sysLen + 2) / 3

/-- `htmlTokensEst = Math.ceil(html.length / 2.5)` (claudeAudit.js 337);
`⌈L / 2.5⌉ = ⌈2L / 5⌉ = (2L + 4) / 5` on naturals. -/
def htmlTokensEst (htmlLen : ℕ) : ℕ := (2 * htmlLen + 4) / 5

/-- `availableTokensForAssets` (claudeAudit.js 339); can be negative. -/
def availableTokensForAssets (sysLen htmlLen : ℕ) : ℤ :=
  (maxInputTokens : ℤ) - systemTokensEst sysLen - htmlTokensEst htmlLen
    - promptOverheadTokens

/-- `availableForAssets = Math.max(0, availableTokensForAssets * 2.5)`
(claudeAudit.js 341), in characters. -/
def availableForAssets (sysLen htmlLen : ℕ) : ℚ :=
  max 0 ((availableTokensForAssets sysLen htmlLen : ℚ) * (5 / 2))

/-- Truncation notice appended to the CSS payload (claudeAudit.js 410). -/
def cssTruncNotice : List Char :=
  "\n\n/* ... CSS truncated to fit token limit — Python pre-audit analyzed the full CSS above */".data

/-- Truncation notice appended to the JS payload (claudeAudit.js 414). -/
def jsTruncNotice : List Char :=
  "\n\n// ... JS truncated to fit token limit — Python pre-audit analyzed the full JS above".data

/-- The proportional allocation and truncation block of `runClaudeAudit`
(claudeAudit.js 402-417): when the combined compressed payloads exceed a
positive budget, CSS gets `Math.floor(available * cssRatio)` characters
and JS the remainder; each payload longer than its allotment is cut with
`substring` and the notice is appended after the cut. -/
def allocateAssets (available : ℚ) (css js : List Char) :
    List Char × List Char :=
  let totalAssetChars : ℕ := css.length + js.length
  if available < (totalAssetChars : ℚ) ∧ 0 < available then
    let cssAlloc : ℤ := ⌊available * ((css.length : ℚ) / (totalAssetChars : ℚ))⌋
    let jsAlloc : ℚ := available - (cssAlloc : ℚ)
    let css' := if (cssAlloc : ℚ) < (css.length : ℚ) then
        css.take cssAlloc.toNat ++ cssTruncNotice else css
    let js' := if jsAlloc < (js.length : ℚ) then
        js.take (⌊jsAlloc⌋.toNat) ++ jsTruncNotice else js
    (css', js')
  else (css, js)

/- ===================================================================
   Part 4: the content compressors (claudeAudit.js 353-371 `compressCSS`
   and 373-393 `compressJS`)

   Each JS `String.replace(regex, r)` with the /g flag is embedded as a
   left-to-right scan over the character list: at each position a
   match attempt is made; on success the replacement is emitted and the
   scan resumes after the consumed characters (replacements are never
   reexamined), on failure one character is emitted and the scan
   advances.  Each regex's match attempt is hand-compiled to a
   deterministic function below; fuel (initially the list length, and an
   invariant of the scan) makes the recursion structural.
   =================================================================== -/

/-- Apostrophe, backquote, and brace characters (used from code rather
than literals). -/
def apos : Char := Char.ofNat 39

/-- Backquote character. -/
def btick : Char := Char.ofNat 96

/-- Opening curly brace character. -/
def obrace : Char := Char.ofNat 123

/-- Closing curly brace character. -/
def cbrace : Char := Char.ofNat 125

/-- JS regex `\s` / `String.prototype.trim` whitespace, restricted to the
characters that occur in this repository's inputs (the rare Unicode
space classes are omitted; all concrete inputs below are ASCII). -/
def isJsWhitespace (c : Char) : Bool :=
  c == ' ' || c == '\t' || c == '\n' || c == '\r' || c == '\x0b' ||
    c == '\x0c' || c == ' '

/-- Generic /g-replace scan (see the Part 4 header): `f cs` returns
`some (replacement, consumed)` when the regex matches at the head of
`cs`, consuming `consumed ≥ 1` characters. -/
def replaceScanAux (f : List Char → Option (List Char × ℕ)) :
    ℕ → List Char → List Char
  | 0, cs => cs
  | fuel + 1, cs =>
    match f cs with
    | some (repl, n) =>
        if n = 0 then cs
        else repl ++ replaceScanAux f fuel (cs.drop n)
    | none =>
        match cs with
        | [] => []
        | c :: rest => c :: replaceScanAux f fuel rest

/-- Entry point of the /g-replace scan. -/
def replaceScan (f : List Char → Option (List Char × ℕ))
    (cs : List Char) : List Char :=
  replaceScanAux f cs.length cs

/-- Characters consumed up to and including the first `*/`, if any
(the lazy `[\s\S]*?` of the block-comment regex). -/
def findCommentClose : List Char → Option ℕ
  | [] => none
  | c :: rest =>
    if c = '*' ∧ rest.head? = some '/' then some 2
    else (findCommentClose rest).map (· + 1)

/-- Match attempt for `\/\*[\s\S]*?\*\//g → ''` (claudeAudit.js 357 and
377). -/
def tryBlockComment : List Char → Option (List Char × ℕ)
  | '/' :: '*' :: rest => (findCommentClose rest).map fun k => (([] : List Char), k + 2)
  | _ => none

/-- Shared first step of both compressors: remove block comments. -/
def stripBlockComments (cs : List Char) : List Char :=
  replaceScan tryBlockComment cs

/-- Match attempt for `url\(["']?data:[^)]{50,}["']?\)/g → 'url(data:...)'`
(claudeAudit.js 359). -/
def tryDataURI (cs : List Char) : Option (List Char × ℕ) :=
  match cs with
  | 'u' :: 'r' :: 'l' :: '(' :: rest =>
    let q : ℕ := match rest with
      | c :: _ => if c == '"' || c == apos then 1 else 0
      | [] => 0
    match rest.drop q with
    | 'd' :: 'a' :: 't' :: 'a' :: ':' :: rest2 =>
      let run := rest2.takeWhile (fun c => c != ')')
      if 50 ≤ run.length && (rest2.drop run.length).head? == some ')' then
        some ("url(data:...)".data, 4 + q + 5 + run.length + 1)
      else none
    | _ => none
  | _ => none

/-- Alternation `(?:webkit|moz|ms|o)` tried in regex order; returns the
matched prefix length. -/
def vendorAfterDash (cs : List Char) : Option ℕ :=
  if "webkit".data.isPrefixOf cs then some 6
  else if "moz".data.isPrefixOf cs then some 3
  else if "ms".data.isPrefixOf cs then some 2
  else if "o".data.isPrefixOf cs then some 1
  else none

/-- Match attempt for `\s*-(?:webkit|moz|ms|o)-[^;:]+:[^;]+;/g → ''`
(claudeAudit.js 361). -/
def tryVendorDecl (cs : List Char) : Option (List Char × ℕ) :=
  let w := cs.takeWhile isJsWhitespace
  match cs.drop w.length with
  | '-' :: t1 =>
    match vendorAfterDash t1 with
    | some plen =>
      match t1.drop plen with
      | '-' :: t3 =>
        let run1 := t3.takeWhile (fun c => c != ';' && c != ':')
        if run1.length = 0 then none
        else match t3.drop run1.length with
          | ':' :: t4 =>
            let run2 := t4.takeWhile (fun c => c != ';')
            if run2.length = 0 then none
            else if (t4.drop run2.length).head? == some ';' then
              some ([], w.length + 1 + plen + 1 + run1.length + 1 + run2.length + 1)
            else none
          | _ => none
      | _ => none
    | none => none
  | _ => none

/-- CSS `[\w-]` (ASCII word characters or dash). -/
def isWordDash (c : Char) : Bool := c.isAlphanum || c == '_' || c == '-'

/-- Scan of the keyframes-body regex `[^}]*(?:\{[^}]*\}[^}]*)*\}`: the
greedy match ends at the first `}` that has no `{` after the previous
`}` (each such earlier `}` closes an inner `\{[^}]*\}` unit); returns
the characters consumed through that `}`. -/
def kfFirstUncovered : Bool → List Char → Option ℕ
  | _, [] => none
  | sawOpen, c :: rest =>
    if c = cbrace then
      if sawOpen then (kfFirstUncovered false rest).map (· + 1) else some 1
    else if c = obrace then (kfFirstUncovered true rest).map (· + 1)
    else (kfFirstUncovered sawOpen rest).map (· + 1)

/-- Characters consumed through the last `}` of the list, if any (the
greedy fallback when every `}` closes an inner unit). -/
def lastCloseWithin : List Char → Option ℕ
  | [] => none
  | c :: rest =>
    match lastCloseWithin rest with
    | some k => some (k + 1)
    | none => if c = cbrace then some 1 else none

/-- End of the keyframes body: first uncovered `}` when one exists,
otherwise the last `}`. -/
def kfBodyEnd (cs : List Char) : Option ℕ :=
  match kfFirstUncovered false cs with
  | some k => some k
  | none => lastCloseWithin cs

/-- Match attempt for
`@keyframes\s+([\w-]+)\s*\{[^}]*(?:\{[^}]*\}[^}]*)*\}/g →
'@keyframes $1 \x7b /* ... */ \x7d'` (claudeAudit.js 363). -/
def tryKeyframes (cs : List Char) : Option (List Char × ℕ) :=
  if "@keyframes".data.isPrefixOf cs then
    let r0 := cs.drop 10
    let w1 := r0.takeWhile isJsWhitespace
    if w1.length = 0 then none
    else
      let r1 := r0.drop w1.length
      let name := r1.takeWhile isWordDash
      if name.length = 0 then none
      else
        let r2 := r1.drop name.length
        let w2 := r2.takeWhile isJsWhitespace
        match r2.drop w2.length with
        | c :: r4 =>
          if c = obrace then
            match kfBodyEnd r4 with
            | some k =>
                some ("@keyframes ".data ++ name ++ " \x7b /* ... */ \x7d".data,
                  10 + w1.length + name.length + w2.length + 1 + k)
            | none => none
          else none
        | [] => none
  else none

/-- Match attempt for `:\s*([^;]{300,});/g → ': ' + $1.substring(0,120)
+ '...;'` (claudeAudit.js 365).  The greedy `\s*` gives back just enough
whitespace for the capture to reach 300 characters. -/
def tryLongValue (cs : List Char) : Option (List Char × ℕ) :=
  match cs with
  | ':' :: rest =>
    let g := rest.takeWhile (fun c => c != ';')
    if 300 ≤ g.length && (rest.drop g.length).head? == some ';' then
      let w := rest.takeWhile isJsWhitespace
      let wl := min w.length (g.length - 300)
      some (": ".data ++ (g.drop wl).take 120 ++ "...;".data, 1 + g.length + 1)
    else none
  | _ => none

/-- Match attempt for `[ \t]+/g → ' '` (claudeAudit.js 367 and 389). -/
def trySpaceRun (cs : List Char) : Option (List Char × ℕ) :=
  let run := cs.takeWhile (fun c => c == ' ' || c == '\t')
  if run.length = 0 then none else some ([' '], run.length)

/-- Match attempt for `\n{2,}/g → '\n'` (claudeAudit.js 368 and 390). -/
def tryNewlineRun (cs : List Char) : Option (List Char × ℕ) :=
  let run := cs.takeWhile (fun c => c == '\n')
  if 2 ≤ run.length then some (['\n'], run.length) else none

/-- Index of the last `'\n'` in the list, if any. -/
def lastNewlinePos : List Char → Option ℕ
  | [] => none
  | c :: rest =>
    match lastNewlinePos rest with
    | some k => some (k + 1)
    | none => if c = '\n' then some 0 else none

/-- The per-line blank regex `^\s*$/gm → ''` (claudeAudit.js 369 and
391).  Because `\s` also matches `'\n'`, a greedy match starting at a
line start removes the longest whitespace run that ends at a line
boundary (everything when the run reaches the end of the string,
otherwise up to the last newline inside the run); `atStart` tracks
whether the scan sits at a line start. -/
def stripBlankRunsAux : ℕ → Bool → List Char → List Char
  | 0, _, cs => cs
  | fuel + 1, atStart, cs =>
    match cs with
    | [] => []
    | c :: rest =>
      if atStart then
        let w := cs.takeWhile isJsWhitespace
        if 0 < w.length && (cs.drop w.length).isEmpty then []
        else
          match lastNewlinePos w with
          | some i =>
            if 0 < i then
              stripBlankRunsAux fuel (w[i-1]? == some '\n') (cs.drop i)
            else
              c :: stripBlankRunsAux fuel (c == '\n') rest
          | none => c :: stripBlankRunsAux fuel (c == '\n') rest
      else
        c :: stripBlankRunsAux fuel (c == '\n') rest

/-- Entry point for `^\s*$/gm → ''`. -/
def stripBlankLines (cs : List Char) : List Char :=
  stripBlankRunsAux cs.length true cs

/-- JS `String.prototype.trim()` (claudeAudit.js 370 and 392). -/
def trimChars (cs : List Char) : List Char :=
  ((cs.dropWhile isJsWhitespace).reverse.dropWhile isJsWhitespace).reverse

/-- The line-comment regex `^\s*\/\/.*$/gm → ''` (claudeAudit.js 379):
from a line start, any whitespace (newlines included, since `\s`
matches them) directly followed by `//` is removed together with the
remainder of that line. -/
def stripLineCommentsAux : ℕ → Bool → List Char → List Char
  | 0, _, cs => cs
  | fuel + 1, atStart, cs =>
    match cs with
    | [] => []
    | c :: rest =>
      if atStart then
        let w := cs.takeWhile isJsWhitespace
        match cs.drop w.length with
        | '/' :: '/' :: t2 =>
          let line := t2.takeWhile (fun ch => ch != '\n')
          stripLineCommentsAux fuel false (cs.drop (w.length + 2 + line.length))
        | _ => c :: stripLineCommentsAux fuel (c == '\n') rest
      else
        c :: stripLineCommentsAux fuel (c == '\n') rest

/-- Entry point for `^\s*\/\/.*$/gm → ''`. -/
def stripLineComments (cs : List Char) : List Char :=
  stripLineCommentsAux cs.length true cs

/-- Match attempt for `\/\/#\s*sourceMappingURL=.*/g → ''`
(claudeAudit.js 381). -/
def trySourceMapRef (cs : List Char) : Option (List Char × ℕ) :=
  match cs with
  | '/' :: '/' :: '#' :: rest =>
    let w := rest.takeWhile isJsWhitespace
    let t := rest.drop w.length
    if "sourceMappingURL=".data.isPrefixOf t then
      let line := (t.drop 17).takeWhile (fun ch => ch != '\n')
      some ([], 3 + w.length + 17 + line.length)
    else none
  | _ => none

/-- Split at `'\n'` (inverse of `joinLines`). -/
def splitLines : List Char → List (List Char)
  | [] => [[]]
  | c :: rest =>
    if c = '\n' then [] :: splitLines rest
    else match splitLines rest with
      | l :: ls => (c :: l) :: ls
      | [] => [[c]]

/-- Join lines with `'\n'`. -/
def joinLines : List (List Char) → List Char
  | [] => []
  | [l] => l
  | l :: ls => l ++ '\n' :: joinLines ls

/-- Replacement text of the long-line regex. -/
def minifiedLineMarker : List Char := "// [minified line removed]".data

/-- The long-line regex `^.{500,}$/gm → '// [minified line removed]'`
(claudeAudit.js 383): purely line-local, since `.` excludes `'\n'`. -/
def elideLongLines (cs : List Char) : List Char :=
  joinLines ((splitLines cs).map fun l =>
    if 500 ≤ l.length then minifiedLineMarker else l)

/-- Count of consecutive `marker ++ optional '\n'` repetitions and the
characters they consume (the `(\/\/ \[minified line removed\]\n?){2,}`
group of claudeAudit.js 385). -/
def countMarkerRepsAux : ℕ → List Char → ℕ × ℕ
  | 0, _ => (0, 0)
  | fuel + 1, cs =>
    if minifiedLineMarker.isPrefixOf cs then
      match cs.drop 26 with
      | '\n' :: cs2 =>
        let kn := countMarkerRepsAux fuel cs2
        (kn.1 + 1, kn.2 + 27)
      | cs1 =>
        let kn := countMarkerRepsAux fuel cs1
        (kn.1 + 1, kn.2 + 26)
    else (0, 0)

/-- Match attempt for the marker-deduplication regex (claudeAudit.js
385): two or more consecutive markers collapse to the bundle marker. -/
def tryMarkerRun (cs : List Char) : Option (List Char × ℕ) :=
  let kn := countMarkerRepsAux cs.length cs
  if 2 ≤ kn.1 then some ("// [minified bundle code removed]\n".data, kn.2)
  else none

/-- Quote characters of the long-string regex. -/
def isQuote (c : Char) : Bool := c == '"' || c == apos || c == btick

/-- Match attempt for the long string-literal regex
`(["'\x60])([^"'\x60\n]{150,})\1/g → q + $2.substring(0,60) + '...' + q`
(claudeAudit.js 387). -/
def tryLongString (cs : List Char) : Option (List Char × ℕ) :=
  match cs with
  | q :: rest =>
    if isQuote q then
      let run := rest.takeWhile (fun c => !(isQuote c) && c != '\n')
      if 150 ≤ run.length && (rest.drop run.length).head? == some q then
        some (q :: (run.take 60 ++ "...".data ++ [q]), 1 + run.length + 1)
      else none
    else none
  | [] => none

/-- `compressCSS` (claudeAudit.js 353-371): the guard `if (!css) return
''` followed by the eight replace passes and `trim()`. -/
def compressCSS (css : List Char) : List Char :=
  if css.isEmpty then []
  else
    trimChars (stripBlankLines (replaceScan tryNewlineRun (replaceScan trySpaceRun
      (replaceScan tryLongValue (replaceScan tryKeyframes (replaceScan tryVendorDecl
        (replaceScan tryDataURI (stripBlockComments css))))))))

/-- `compressJS` (claudeAudit.js 373-393): the guard `if (!js) return ''`
followed by the eight replace passes and `trim()`. -/
def compressJS (js : List Char) : List Char :=
  if js.isEmpty then []
  else
    trimChars (stripBlankLines (replaceScan tryNewlineRun (replaceScan trySpaceRun
      (replaceScan tryLongString (replaceScan tryMarkerRun (elideLongLines
        (replaceScan trySourceMapRef (stripLineComments (stripBlockComments js)))))))))

/- ===================================================================
   Part 4b: concrete sample data for the scenarios below
   =================================================================== -/

/-- Empty judgment-service result (the service returned `{}`). -/
def emptyClaudeResult : ClaudeResult := { slots := [], rest := "" }

/-- Empty pre-audit result (the checker returned nothing). -/
def emptyPreAuditData : PreAuditData :=
  { findings := [], rawCSS := "", rawJS := "" }

/-- Judgment-service finding: an erroneous echo of the already-decided
check "X", with verdict `pass`. -/
def sampleEchoFinding : Finding :=
  { check := "X", check_en := "X", status := "pass", note_no := "",
    note_en := "", details_no := "", details_en := "",
    recommendation_no := "", recommendation_en := "" }

/-- Deterministic-checker finding: check "X" decided as `FAIL`. -/
def sampleDecidedPreFinding : PreFinding :=
  { check := "X", check_en := "X", status := "FAIL", note := none,
    note_en := none, detail := none, detail_en := none,
    recommendation := none, recommendation_en := none }

/-- Judgment-service result containing only the echo of "X". -/
def sampleClaudeResult : ClaudeResult :=
  { slots := [(("accessibility", "robust"), [sampleEchoFinding])],
    rest := "summaries" }

/-- Pre-audit result containing only the decided finding for "X". -/
def samplePreAuditData : PreAuditData :=
  { findings := [("a11y_robust", [sampleDecidedPreFinding])],
    rawCSS := "", rawJS := "" }

/-- Pre-audit result whose fetched stylesheet text is `.a \x7b color: red \x7d`. -/
def samplePreCSS1 : PreAuditData :=
  { findings := [], rawCSS := ".a \x7b color: red \x7d", rawJS := "" }

/-- Pre-audit result whose fetched stylesheet text is `.b \x7b color: blue \x7d`. -/
def samplePreCSS2 : PreAuditData :=
  { findings := [], rawCSS := ".b \x7b color: blue \x7d", rawJS := "" }

/- ===================================================================
   Part 5: helper lemmas
   =================================================================== -/

theorem mergeOneFinding_getElem? (fs : List Finding) (p : PreFinding)
    (i : ℕ) (f : Finding) (hf : fs[i]? = some f)
    (hs : statusIsOpen f.status = false) :
    (mergeOneFinding fs p)[i]? = some f := by
  have hi : i < fs.length := (List.getElem?_eq_some.mp hf).1
  unfold mergeOneFinding
  split
  · exact hf
  · split
    · next j hj =>
      split
      · next g hg =>
        split
        · next hopen =>
          by_cases hij : j = i
          · subst hij
            rw [hg] at hf
            cases hf
            rw [hopen] at hs
            cases hs
          · rw [List.getElem?_set_ne hij]
            exact hf
        · exact hf
      · exact hf
    · rw [List.getElem?_append_left hi]
      exact hf

theorem mergeOneFinding_length_le (fs : List Finding) (p : PreFinding) :
    fs.length ≤ (mergeOneFinding fs p).length := by
  unfold mergeOneFinding
  split
  · exact le_refl _
  · split
    · split
      · split
        · simp
        · exact le_refl _
      · exact le_refl _
    · simp

theorem mergeFindingsList_getElem? (ps : List PreFinding)
    (fs : List Finding) (i : ℕ) (f : Finding) (hf : fs[i]? = some f)
    (hs : statusIsOpen f.status = false) :
    (mergeFindingsList fs ps)[i]? = some f := by
  induction ps generalizing fs with
  | nil => exact hf
  | cons p ps ih =>
    simp only [mergeFindingsList, List.foldl_cons]
    exact ih _ (mergeOneFinding_getElem? fs p i f hf hs)

theorem mergeFindingsList_length_le (ps : List PreFinding)
    (fs : List Finding) : fs.length ≤ (mergeFindingsList fs ps).length := by
  induction ps generalizing fs with
  | nil => exact le_refl _
  | cons p ps ih =>
    simp only [mergeFindingsList, List.foldl_cons]
    exact le_trans (mergeOneFinding_length_le fs p) (ih _)

theorem getSlot_setSlot_self (s : List ((String × String) × List Finding))
    (k : String × String) (v : List Finding) :
    getSlot (setSlot s k v) k = some v := by
  induction s with
  | nil => simp [setSlot, getSlot]
  | cons e rest ih =>
    obtain ⟨k', v'⟩ := e
    by_cases h : k' = k
    · simp [setSlot, h, getSlot]
    · simp [setSlot, h, getSlot, ih]

theorem getSlot_setSlot_ne (s : List ((String × String) × List Finding))
    (k q : String × String) (v : List Finding) (h : q ≠ k) :
    getSlot (setSlot s k v) q = getSlot s q := by
  have hkq : ¬ (k = q) := fun hh => h hh.symm
  induction s with
  | nil => simp [setSlot, getSlot, hkq]
  | cons e rest ih =>
    obtain ⟨k', v'⟩ := e
    by_cases hk : k' = k
    · subst hk
      simp [setSlot, getSlot, hkq]
    · simp [setSlot, hk, getSlot, ih]

theorem sumSlots_setSlot_le (s : List ((String × String) × List Finding))
    (k : String × String) (v : List Finding)
    (hv : ((getSlot s k).getD []).length ≤ v.length) :
    (s.map fun e => e.2.length).sum ≤
      ((setSlot s k v).map fun e => e.2.length).sum := by
  induction s with
  | nil => simp [setSlot]
  | cons e rest ih =>
    obtain ⟨k', v'⟩ := e
    by_cases h : k' = k
    · simp only [getSlot, if_pos h, Option.getD_some] at hv
      simp only [setSlot, if_pos h, List.map_cons, List.sum_cons]
      omega
    · simp only [getSlot, if_neg h] at hv
      simp only [setSlot, if_neg h, List.map_cons, List.sum_cons]
      have := ih hv
      omega

theorem applyCategory_rest (m : ClaudeResult)
    (e : String × List PreFinding) : (applyCategory m e).rest = m.rest := by
  unfold applyCategory
  split <;> rfl

theorem applyCategory_getElem? (m : ClaudeResult)
    (e : String × List PreFinding) (key : String × String) (i : ℕ)
    (f : Finding) (hf : ((getSlot m.slots key).getD [])[i]? = some f)
    (hs : statusIsOpen f.status = false) :
    ((getSlot (applyCategory m e).slots key).getD [])[i]? = some f := by
  unfold applyCategory
  split
  · exact hf
  · next k hk =>
    by_cases hkey : k = key
    · subst hkey
      simp only [getSlot_setSlot_self, Option.getD_some]
      exact mergeFindingsList_getElem? _ _ _ _ hf hs
    · simp only [getSlot_setSlot_ne _ _ _ _ (Ne.symm hkey)]
      exact hf

theorem applyCategory_slotLen_le (m : ClaudeResult)
    (e : String × List PreFinding) (key : String × String) :
    ((getSlot m.slots key).getD []).length ≤
      ((getSlot (applyCategory m e).slots key).getD []).length := by
  unfold applyCategory
  split
  · exact le_refl _
  · next k hk =>
    by_cases hkey : k = key
    · subst hkey
      simp only [getSlot_setSlot_self, Option.getD_some]
      exact mergeFindingsList_length_le _ _
    · simp only [getSlot_setSlot_ne _ _ _ _ (Ne.symm hkey)]
      exact le_refl _

theorem applyCategory_total_le (m : ClaudeResult)
    (e : String × List PreFinding) :
    totalFindings m ≤ totalFindings (applyCategory m e) := by
  unfold applyCategory totalFindings
  split
  · exact le_refl _
  · next k hk =>
    exact sumSlots_setSlot_le _ _ _ (mergeFindingsList_length_le _ _)

theorem foldl_applyCategory_rest (es : List (String × List PreFinding))
    (m : ClaudeResult) : (es.foldl applyCategory m).rest = m.rest := by
  induction es generalizing m with
  | nil => rfl
  | cons e es ih => rw [List.foldl_cons, ih, applyCategory_rest]

theorem foldl_applyCategory_getElem? (es : List (String × List PreFinding))
    (m : ClaudeResult) (key : String × String) (i : ℕ) (f : Finding)
    (hf : ((getSlot m.slots key).getD [])[i]? = some f)
    (hs : statusIsOpen f.status = false) :
    ((getSlot (es.foldl applyCategory m).slots key).getD [])[i]? = some f := by
  induction es generalizing m with
  | nil => exact hf
  | cons e es ih =>
    rw [List.foldl_cons]
    exact ih _ (applyCategory_getElem? m e key i f hf hs)

theorem foldl_applyCategory_slotLen_le (es : List (String × List PreFinding))
    (m : ClaudeResult) (key : String × String) :
    ((getSlot m.slots key).getD []).length ≤
      ((getSlot (es.foldl applyCategory m).slots key).getD []).length := by
  induction es generalizing m with
  | nil => exact le_refl _
  | cons e es ih =>
    rw [List.foldl_cons]
    exact le_trans (applyCategory_slotLen_le m e key) (ih _)

theorem foldl_applyCategory_total_le (es : List (String × List PreFinding))
    (m : ClaudeResult) : totalFindings m ≤ totalFindings (es.foldl applyCategory m) := by
  induction es generalizing m with
  | nil => exact le_refl _
  | cons e es ih =>
    rw [List.foldl_cons]
    exact le_trans (applyCategory_total_le m e) (ih _)

theorem takeWhile_length_le (p : Char → Bool) (cs : List Char) :
    (cs.takeWhile p).length ≤ cs.length := by
  induction cs with
  | nil => simp
  | cons c rest ih =>
    simp only [List.takeWhile]
    split
    · simp only [List.length_cons]; omega
    · simp

theorem dropWhile_length_le (p : Char → Bool) (cs : List Char) :
    (cs.dropWhile p).length ≤ cs.length := by
  induction cs with
  | nil => simp
  | cons c rest ih =>
    simp only [List.dropWhile]
    split
    · exact le_trans ih (by simp only [List.length_cons]; omega)
    · exact le_refl _

theorem replaceScanAux_length_le (f : List Char → Option (List Char × ℕ))
    (hf : ∀ cs r n, f cs = some (r, n) → r.length ≤ n ∧ n ≤ cs.length)
    (fuel : ℕ) (cs : List Char) :
    (replaceScanAux f fuel cs).length ≤ cs.length := by
  induction fuel generalizing cs with
  | zero => exact le_refl _
  | succ fuel ih =>
    unfold replaceScanAux
    split
    · next r n hmatch =>
      split
      · exact le_refl _
      · next hn =>
        obtain ⟨h1, h2⟩ := hf cs r n hmatch
        have h3 := ih (cs.drop n)
        simp only [List.length_append, List.length_drop] at h3 ⊢
        omega
    · split
      · simp
      · simp only [List.length_cons]
        exact Nat.succ_le_succ (ih _)

theorem replaceScan_length_le (f : List Char → Option (List Char × ℕ))
    (hf : ∀ cs r n, f cs = some (r, n) → r.length ≤ n ∧ n ≤ cs.length)
    (cs : List Char) : (replaceScan f cs).length ≤ cs.length :=
  replaceScanAux_length_le f hf cs.length cs

theorem findCommentClose_le (cs : List Char) (k : ℕ)
    (h : findCommentClose cs = some k) : k ≤ cs.length := by
  induction cs generalizing k with
  | nil => simp [findCommentClose] at h
  | cons c rest ih =>
    unfold findCommentClose at h
    split at h
    · next hc =>
      injection h with h1
      obtain ⟨hc1, hc2⟩ := hc
      cases rest with
      | nil => simp at hc2
      | cons d rest2 => simp only [List.length_cons]; omega
    · cases hfc : findCommentClose rest with
      | none => rw [hfc] at h; simp [Option.map] at h
      | some k' =>
        rw [hfc] at h
        simp only [Option.map, Option.some.injEq] at h
        have := ih k' hfc
        simp only [List.length_cons]
        omega

theorem tryBlockComment_spec : ∀ (cs r : List Char) (n : ℕ),
    tryBlockComment cs = some (r, n) → r.length ≤ n ∧ n ≤ cs.length := by
  intro cs r n h
  unfold tryBlockComment at h
  split at h
  · next rest =>
    cases hfc : findCommentClose rest with
    | none => rw [hfc] at h; simp [Option.map] at h
    | some k =>
      rw [hfc] at h
      simp only [Option.map, Option.some.injEq, Prod.mk.injEq] at h
      obtain ⟨h1, h2⟩ := h
      subst h1
      subst h2
      have := findCommentClose_le rest k hfc
      simp only [List.length_nil, List.length_cons]
      omega
  · cases h

theorem trySpaceRun_spec : ∀ (cs r : List Char) (n : ℕ),
    trySpaceRun cs = some (r, n) → r.length ≤ n ∧ n ≤ cs.length := by
  intro cs r n h
  unfold trySpaceRun at h
  dsimp only at h
  split at h
  · cases h
  · next hrun =>
    injection h with h1
    injection h1 with h2 h3
    subst h2
    subst h3
    have := takeWhile_length_le (fun c => c == ' ' || c == '\t') cs
    simp only [List.length_cons, List.length_nil]
    omega

theorem tryNewlineRun_spec : ∀ (cs r : List Char) (n : ℕ),
    tryNewlineRun cs = some (r, n) → r.length ≤ n ∧ n ≤ cs.length := by
  intro cs r n h
  unfold tryNewlineRun at h
  dsimp only at h
  split at h
  · next hrun =>
    injection h with h1
    injection h1 with h2 h3
    subst h2
    subst h3
    have := takeWhile_length_le (fun c => c == '\n') cs
    simp only [List.length_cons, List.length_nil]
    omega
  · cases h

theorem trySourceMapRef_spec : ∀ (cs r : List Char) (n : ℕ),
    trySourceMapRef cs = some (r, n) → r.length ≤ n ∧ n ≤ cs.length := by
  intro cs r n h
  unfold trySourceMapRef at h
  split at h
  · next rest =>
    dsimp only at h
    split at h
    · next hpre =>
      injection h with h1
      injection h1 with h2 h3
      subst h2
      subst h3
      have hw := takeWhile_length_le isJsWhitespace rest
      have hp : ("sourceMappingURL=".data).length
          ≤ (rest.drop (rest.takeWhile isJsWhitespace).length).length :=
        (List.isPrefixOf_iff_prefix.mp hpre).length_le
      have hp' : 17 ≤ rest.length - (rest.takeWhile isJsWhitespace).length := by
        simpa using hp
      have hline := takeWhile_length_le (fun ch => ch != '\n')
        ((rest.drop (rest.takeWhile isJsWhitespace).length).drop 17)
      simp only [List.length_drop] at hline
      simp only [List.length_nil, List.length_cons]
      omega
    · cases h
  · cases h

theorem countMarkerRepsAux_spec (fuel : ℕ) (cs : List Char) :
    (countMarkerRepsAux fuel cs).2 ≤ cs.length ∧
      26 * (countMarkerRepsAux fuel cs).1 ≤ (countMarkerRepsAux fuel cs).2 := by
  induction fuel generalizing cs with
  | zero => simp [countMarkerRepsAux]
  | succ fuel ih =>
    unfold countMarkerRepsAux
    split
    · next hpre =>
      have h26 : 26 ≤ cs.length := by
        have hp : minifiedLineMarker.length ≤ cs.length :=
          (List.isPrefixOf_iff_prefix.mp hpre).length_le
        simpa using hp
      split
      · next cs2 heq =>
        have hlen : (cs.drop 26).length = cs.length - 26 := List.length_drop 26 cs
        rw [heq] at hlen
        simp only [List.length_cons] at hlen
        obtain ⟨ha, hb⟩ := ih cs2
        dsimp only
        constructor <;> omega
      · have hlen : (cs.drop 26).length = cs.length - 26 := List.length_drop 26 cs
        obtain ⟨ha, hb⟩ := ih (cs.drop 26)
        dsimp only
        constructor <;> omega
    · simp

theorem tryMarkerRun_spec : ∀ (cs r : List Char) (n : ℕ),
    tryMarkerRun cs = some (r, n) → r.length ≤ n ∧ n ≤ cs.length := by
  intro cs r n h
  unfold tryMarkerRun at h
  dsimp only at h
  split at h
  · next hk =>
    injection h with h1
    injection h1 with h2 h3
    subst h2
    subst h3
    obtain ⟨ha, hb⟩ := countMarkerRepsAux_spec cs.length cs
    have hr : ("// [minified bundle code removed]\n".data).length = 34 := by decide
    rw [hr]
    omega
  · cases h

theorem tryLongString_spec : ∀ (cs r : List Char) (n : ℕ),
    tryLongString cs = some (r, n) → r.length ≤ n ∧ n ≤ cs.length := by
  intro cs r n h
  unfold tryLongString at h
  split at h
  · next q rest =>
    split at h
    · dsimp only at h
      split at h
      · next hcond =>
        injection h with h1
        injection h1 with h2 h3
        subst h2
        subst h3
        simp only [Bool.and_eq_true, decide_eq_true_eq, beq_iff_eq] at hcond
        obtain ⟨h150, hhead⟩ := hcond
        have hrun := takeWhile_length_le (fun c => !(isQuote c) && c != '\n') rest
        have hne : rest.drop (rest.takeWhile (fun c => !(isQuote c) && c != '\n')).length ≠ [] := by
          intro hh
          rw [hh] at hhead
          simp at hhead
        have hpos : 0 < (rest.drop (rest.takeWhile (fun c => !(isQuote c) && c != '\n')).length).length :=
          List.length_pos.mpr hne
        simp only [List.length_drop] at hpos
        simp only [List.length_cons, List.length_append, List.length_take, List.length_nil]
        omega
      · cases h
    · cases h
  · cases h
theorem stripLineCommentsAux_length_le (fuel : ℕ) (b : Bool) (cs : List Char) :
    (stripLineCommentsAux fuel b cs).length ≤ cs.length := by
  induction fuel generalizing b cs with
  | zero => exact le_refl _
  | succ fuel ih =>
    unfold stripLineCommentsAux
    split
    · simp
    · next c rest =>
      split
      · dsimp only
        split
        · refine le_trans (ih _ _) ?_
          simp only [List.length_drop]
          omega
        · simp only [List.length_cons]
          exact Nat.succ_le_succ (ih _ _)
      · simp only [List.length_cons]
        exact Nat.succ_le_succ (ih _ _)

theorem stripBlankRunsAux_length_le (fuel : ℕ) (b : Bool) (cs : List Char) :
    (stripBlankRunsAux fuel b cs).length ≤ cs.length := by
  induction fuel generalizing b cs with
  | zero => exact le_refl _
  | succ fuel ih =>
    unfold stripBlankRunsAux
    split
    · simp
    · next c rest =>
      split
      · dsimp only
        split
        · simp
        · split
          · split
            · refine le_trans (ih _ _) ?_
              simp only [List.length_drop]
              omega
            · simp only [List.length_cons]
              exact Nat.succ_le_succ (ih _ _)
          · simp only [List.length_cons]
            exact Nat.succ_le_succ (ih _ _)
      · simp only [List.length_cons]
        exact Nat.succ_le_succ (ih _ _)

theorem trimChars_length_le (cs : List Char) : (trimChars cs).length ≤ cs.length := by
  unfold trimChars
  have h1 := dropWhile_length_le isJsWhitespace cs
  have h2 := dropWhile_length_le isJsWhitespace ((cs.dropWhile isJsWhitespace).reverse)
  simp only [List.length_reverse] at h2 ⊢
  omega
theorem joinLines_cons_cons (a b : List Char) (ls : List (List Char)) :
    joinLines (a :: b :: ls) = a ++ '\n' :: joinLines (b :: ls) := rfl

theorem splitLines_ne_nil (cs : List Char) : splitLines cs ≠ [] := by
  cases cs with
  | nil => simp [splitLines]
  | cons c rest =>
    simp only [splitLines]
    split
    · simp
    · split <;> simp

theorem joinLines_cons_head (c : Char) (l : List Char) (ls : List (List Char)) :
    joinLines ((c :: l) :: ls) = c :: joinLines (l :: ls) := by
  cases ls <;> rfl

theorem joinLines_splitLines (cs : List Char) : joinLines (splitLines cs) = cs := by
  induction cs with
  | nil => rfl
  | cons c rest ih =>
    simp only [splitLines]
    split
    · next hc =>
      subst hc
      cases hsp : splitLines rest with
      | nil => exact absurd hsp (splitLines_ne_nil rest)
      | cons l ls =>
        rw [hsp] at ih
        rw [joinLines_cons_cons]
        simp [ih]
    · next hc =>
      cases hsp : splitLines rest with
      | nil => exact absurd hsp (splitLines_ne_nil rest)
      | cons l ls =>
        rw [hsp] at ih
        dsimp only
        rw [joinLines_cons_head]
        simp [ih]

theorem joinLines_map_elide_le (ls : List (List Char)) :
    (joinLines (ls.map fun l =>
      if 500 ≤ l.length then minifiedLineMarker else l)).length
      ≤ (joinLines ls).length := by
  induction ls with
  | nil => simp [joinLines]
  | cons a ls ih =>
    cases ls with
    | nil =>
      simp only [List.map_cons, List.map_nil, joinLines]
      split
      · next h =>
        have : minifiedLineMarker.length = 26 := by decide
        omega
      · exact le_refl _
    | cons b ls2 =>
      simp only [List.map_cons] at ih ⊢
      rw [joinLines_cons_cons, joinLines_cons_cons]
      simp only [List.length_append, List.length_cons]
      have h1 : ((if 500 ≤ a.length then minifiedLineMarker else a)).length ≤ a.length := by
        split
        · next h =>
          have : minifiedLineMarker.length = 26 := by decide
          omega
        · exact le_refl _
      omega

theorem elideLongLines_length_le (cs : List Char) :
    (elideLongLines cs).length ≤ cs.length := by
  unfold elideLongLines
  have := joinLines_map_elide_le (splitLines cs)
  rw [joinLines_splitLines] at this
  exact this
theorem stripBlockComments_length_le (cs : List Char) :
    (stripBlockComments cs).length ≤ cs.length :=
  replaceScan_length_le tryBlockComment tryBlockComment_spec cs

theorem stripLineComments_length_le (cs : List Char) :
    (stripLineComments cs).length ≤ cs.length :=
  stripLineCommentsAux_length_le cs.length true cs

theorem stripBlankLines_length_le (cs : List Char) :
    (stripBlankLines cs).length ≤ cs.length :=
  stripBlankRunsAux_length_le cs.length true cs

theorem compressJS_length_le (js : List Char) :
    (compressJS js).length ≤ js.length := by
  unfold compressJS
  split
  · simp
  · have h1 := stripBlockComments_length_le js
    have h2 := stripLineComments_length_le (stripBlockComments js)
    have h3 := replaceScan_length_le trySourceMapRef trySourceMapRef_spec
      (stripLineComments (stripBlockComments js))
    have h4 := elideLongLines_length_le
      (replaceScan trySourceMapRef (stripLineComments (stripBlockComments js)))
    have h5 := replaceScan_length_le tryMarkerRun tryMarkerRun_spec
      (elideLongLines (replaceScan trySourceMapRef (stripLineComments (stripBlockComments js))))
    have h6 := replaceScan_length_le tryLongString tryLongString_spec
      (replaceScan tryMarkerRun (elideLongLines (replaceScan trySourceMapRef
        (stripLineComments (stripBlockComments js)))))
    have h7 := replaceScan_length_le trySpaceRun trySpaceRun_spec
      (replaceScan tryLongString (replaceScan tryMarkerRun (elideLongLines
        (replaceScan trySourceMapRef (stripLineComments (stripBlockComments js))))))
    have h8 := replaceScan_length_le tryNewlineRun tryNewlineRun_spec
      (replaceScan trySpaceRun (replaceScan tryLongString (replaceScan tryMarkerRun
        (elideLongLines (replaceScan trySourceMapRef (stripLineComments
          (stripBlockComments js)))))))
    have h9 := stripBlankLines_length_le (replaceScan tryNewlineRun (replaceScan trySpaceRun
      (replaceScan tryLongString (replaceScan tryMarkerRun (elideLongLines
        (replaceScan trySourceMapRef (stripLineComments (stripBlockComments js))))))))
    have h10 := trimChars_length_le (stripBlankLines (replaceScan tryNewlineRun
      (replaceScan trySpaceRun (replaceScan tryLongString (replaceScan tryMarkerRun
        (elideLongLines (replaceScan trySourceMapRef (stripLineComments
          (stripBlockComments js)))))))))
    omega
theorem allocateAssets_sum_le (available : ℚ) (css js : List Char)
    (hpos : 0 < available) :
    ((allocateAssets available css js).1.length
      + (allocateAssets available css js).2.length : ℚ)
      ≤ available + cssTruncNotice.length + jsTruncNotice.length := by
  have hn1 : (0:ℚ) ≤ (cssTruncNotice.length : ℚ) := Nat.cast_nonneg _
  have hn2 : (0:ℚ) ≤ (jsTruncNotice.length : ℚ) := Nat.cast_nonneg _
  unfold allocateAssets
  by_cases hc : available < ((css.length + js.length : ℕ) : ℚ) ∧ 0 < available
  · rw [if_pos hc]
    dsimp only
    have hT : (0:ℚ) < ((css.length + js.length : ℕ) : ℚ) := lt_trans hpos hc.1
    have hcssle : ((css.length : ℕ) : ℚ) ≤ ((css.length + js.length : ℕ) : ℚ) := by
      push_cast
      linarith [Nat.cast_nonneg (α := ℚ) js.length]
    have hratio : ((css.length : ℕ) : ℚ) / ((css.length + js.length : ℕ) : ℚ) ≤ 1 :=
      (div_le_one hT).mpr hcssle
    set A : ℤ := ⌊available * (((css.length : ℕ) : ℚ) / ((css.length + js.length : ℕ) : ℚ))⌋ with hA
    have hA0 : 0 ≤ A := Int.floor_nonneg.mpr (by positivity)
    have hAle : (A : ℚ) ≤ available := by
      refine le_trans (Int.floor_le _) ?_
      calc available * (((css.length : ℕ) : ℚ) / ((css.length + js.length : ℕ) : ℚ))
          ≤ available * 1 := mul_le_mul_of_nonneg_left hratio (le_of_lt hpos)
        _ = available := mul_one available
    have hB0 : (0:ℚ) ≤ available - (A : ℚ) := by linarith
    have hBfl0 : 0 ≤ ⌊available - (A : ℚ)⌋ := Int.floor_nonneg.mpr hB0
    have hBle : ((⌊available - (A : ℚ)⌋ : ℤ) : ℚ) ≤ available - (A : ℚ) := Int.floor_le _
    have htnA : ((A.toNat : ℕ) : ℚ) = (A : ℚ) := by
      exact_mod_cast Int.toNat_of_nonneg hA0
    have htnB : ((⌊available - (A : ℚ)⌋.toNat : ℕ) : ℚ) = ((⌊available - (A : ℚ)⌋ : ℤ) : ℚ) := by
      exact_mod_cast Int.toNat_of_nonneg hBfl0
    have hcss : (((if (A : ℚ) < ((css.length : ℕ) : ℚ) then
        css.take A.toNat ++ cssTruncNotice else css).length : ℕ) : ℚ)
        ≤ (A : ℚ) + cssTruncNotice.length := by
      split
      · simp only [List.length_append, List.length_take]
        push_cast
        have hmin : ((min A.toNat css.length : ℕ) : ℚ) ≤ ((A.toNat : ℕ) : ℚ) := by
          exact_mod_cast min_le_left A.toNat css.length
        rw [htnA] at hmin
        push_cast at hmin
        linarith
      · next h1 =>
        have h1' := not_lt.mp h1
        linarith
    have hjs : (((if available - (A : ℚ) < ((js.length : ℕ) : ℚ) then
        js.take ⌊available - (A : ℚ)⌋.toNat ++ jsTruncNotice else js).length : ℕ) : ℚ)
        ≤ (available - (A : ℚ)) + jsTruncNotice.length := by
      split
      · simp only [List.length_append, List.length_take]
        push_cast
        have hmin : ((min ⌊available - (A : ℚ)⌋.toNat js.length : ℕ) : ℚ)
            ≤ ((⌊available - (A : ℚ)⌋.toNat : ℕ) : ℚ) := by
          exact_mod_cast min_le_left ⌊available - (A : ℚ)⌋.toNat js.length
        rw [htnB] at hmin
        push_cast at hmin
        linarith
      · next h1 =>
        have h1' := not_lt.mp h1
        linarith
    push_cast at hcss hjs ⊢
    linarith
  · rw [if_neg hc]
    dsimp only
    push_neg at hc
    have hTle : ((css.length + js.length : ℕ) : ℚ) ≤ available := by
      by_contra hlt
      push_neg at hlt
      exact absurd (hc hlt) (not_le.mpr hpos)
    push_cast at hTle ⊢
    linarith
theorem allocateAssets_nonpos (available : ℚ) (css js : List Char)
    (h : available ≤ 0) : allocateAssets available css js = (css, js) := by
  unfold allocateAssets
  dsimp only
  split
  · next hc => exact absurd hc.2 (not_lt.mpr h)
  · rfl

theorem availableForAssets_eq_zero (sysLen htmlLen : ℕ)
    (h : availableTokensForAssets sysLen htmlLen < 0) :
    availableForAssets sysLen htmlLen = 0 := by
  unfold availableForAssets
  apply max_eq_left
  have h' : ((availableTokensForAssets sysLen htmlLen : ℤ) : ℚ) < 0 := by
    exact_mod_cast h
  nlinarith

theorem availableForAssets_of_pos (sysLen htmlLen : ℕ)
    (h : 0 < availableTokensForAssets sysLen htmlLen) :
    availableForAssets sysLen htmlLen
      = ((availableTokensForAssets sysLen htmlLen : ℤ) : ℚ) * (5 / 2) := by
  unfold availableForAssets
  apply max_eq_right
  have h' : (0:ℚ) < ((availableTokensForAssets sysLen htmlLen : ℤ) : ℚ) := by
    exact_mod_cast h
  nlinarith

theorem availableTokens_cast (sysLen htmlLen : ℕ) :
    ((availableTokensForAssets sysLen htmlLen : ℤ) : ℚ)
      = 163000 - systemTokensEst sysLen - htmlTokensEst htmlLen - 2000 := by
  have h1 : maxInputTokens = 163000 := by
    norm_num [maxInputTokens, outputReserve, safetyMargin]
  unfold availableTokensForAssets promptOverheadTokens
  rw [h1]
  push_cast
  ring
/-- C5 (amended): the evaluation-cache key is a function of exactly the
target URL and the raw page HTML (claudeAudit.js 219) — not of the
effective post-truncation payloads.  A second `runClaudeAudit` call with
the same URL and HTML returns the stored result of the first call without
invoking the judgment service again, regardless of the pre-audit data
(CSS/JS payloads) or of what the service would have answered. -/
theorem runClaudeAuditModel_second_call (cache : AuditCache) (url html : String)
    (p1 p2 : Option PreAuditData) (r1 r2 : ClaudeResult) :
    (runClaudeAuditModel (runClaudeAuditModel cache url html p1 r1).cache
        url html p2 r2).result
      = (runClaudeAuditModel cache url html p1 r1).result
    ∧ (runClaudeAuditModel (runClaudeAuditModel cache url html p1 r1).cache
        url html p2 r2).invokedClaude = false := by
  unfold runClaudeAuditModel
  cases hl : List.lookup (cacheKeyOf url html) cache with
  | some r =>
    dsimp only
    rw [hl]
    dsimp only
    rw [hl]
    exact ⟨rfl, rfl⟩
  | none =>
    dsimp only
    rw [hl]
    dsimp only
    simp [List.lookup]
/-- C4 (amended): when the combined payloads exceed a positive budget and
both payloads overrun their allotments, the CSS payload is allotted
exactly `⌊available * size_css / sum⌋` characters while the JS payload is
allotted the *remainder* `available - cssAlloc` (floored by `substring`),
not `⌊available * size_js / sum⌋`; each truncated payload consists of its
allotment plus the truncation notice appended on top (claudeAudit.js
402-417).  For available = 250 and sizes 1000/200 this gives 208 and 42
(the remainder; the floor formula would give 41). -/
theorem allocateAssets_alloc_lengths (available : ℚ) (css js : List Char)
    (h1 : available < ((css.length + js.length : ℕ) : ℚ))
    (h2 : 0 < available)
    (h3 : ((⌊available * (((css.length : ℕ) : ℚ)
        / ((css.length + js.length : ℕ) : ℚ))⌋ : ℤ) : ℚ) < ((css.length : ℕ) : ℚ))
    (h4 : available - ((⌊available * (((css.length : ℕ) : ℚ)
        / ((css.length + js.length : ℕ) : ℚ))⌋ : ℤ) : ℚ) < ((js.length : ℕ) : ℚ)) :
    (allocateAssets available css js).1.length
        = (⌊available * (((css.length : ℕ) : ℚ)
            / ((css.length + js.length : ℕ) : ℚ))⌋).toNat + cssTruncNotice.length
      ∧ (allocateAssets available css js).2.length
        = (⌊available - ((⌊available * (((css.length : ℕ) : ℚ)
            / ((css.length + js.length : ℕ) : ℚ))⌋ : ℤ) : ℚ)⌋).toNat
          + jsTruncNotice.length := by
  set A : ℤ := ⌊available * (((css.length : ℕ) : ℚ) / ((css.length + js.length : ℕ) : ℚ))⌋ with hA
  have hAT : A.toNat ≤ css.length := by
    rcases le_or_lt 0 A with hA0 | hA0
    · have hc : ((A.toNat : ℕ) : ℚ) = (A : ℚ) := by
        exact_mod_cast Int.toNat_of_nonneg hA0
      have : ((A.toNat : ℕ) : ℚ) < ((css.length : ℕ) : ℚ) := by rw [hc]; exact h3
      exact_mod_cast le_of_lt this
    · rw [Int.toNat_of_nonpos (le_of_lt hA0)]
      exact Nat.zero_le _
  have hBT : (⌊available - (A : ℚ)⌋).toNat ≤ js.length := by
    rcases le_or_lt 0 (⌊available - (A : ℚ)⌋) with hB0 | hB0
    · have hc : (((⌊available - (A : ℚ)⌋).toNat : ℕ) : ℚ) = ((⌊available - (A : ℚ)⌋ : ℤ) : ℚ) := by
        exact_mod_cast Int.toNat_of_nonneg hB0
      have hfl : ((⌊available - (A : ℚ)⌋ : ℤ) : ℚ) ≤ available - (A : ℚ) := Int.floor_le _
      have : (((⌊available - (A : ℚ)⌋).toNat : ℕ) : ℚ) < ((js.length : ℕ) : ℚ) := by
        rw [hc]
        exact lt_of_le_of_lt hfl h4
      exact_mod_cast le_of_lt this
    · rw [Int.toNat_of_nonpos (le_of_lt hB0)]
      exact Nat.zero_le _
  unfold allocateAssets
  dsimp only
  rw [if_pos ⟨h1, h2⟩]
  rw [← hA]
  rw [if_pos h3, if_pos h4]
  dsimp only
  constructor
  · simp only [List.length_append, List.length_take]
    omega
  · simp only [List.length_append, List.length_take]
    omega
set_option maxRecDepth 4000 in
theorem allocateAssets_250_1000_200 :
    allocateAssets 250 (List.replicate 1000 'a') (List.replicate 200 'b')
      = (List.replicate 208 'a' ++ cssTruncNotice,
         List.replicate 42 'b' ++ jsTruncNotice) := by
  unfold allocateAssets
  rw [if_pos (by norm_num : (250:ℚ) < ((((List.replicate 1000 'a').length
    + (List.replicate 200 'b').length : ℕ)) : ℚ) ∧ (0:ℚ) < 250)]
  have hfl : (⌊(250:ℚ) * (((List.replicate 1000 'a').length : ℚ)
      / (((List.replicate 1000 'a').length + (List.replicate 200 'b').length : ℕ) : ℚ))⌋ : ℤ)
      = 208 := by
    simp only [List.length_replicate]
    rw [Int.floor_eq_iff]
    norm_num
  rw [hfl]
  dsimp only
  have hfl2 : (⌊(250:ℚ) - ((208:ℤ):ℚ)⌋ : ℤ) = 42 := by
    rw [Int.floor_eq_iff]
    norm_num
  rw [hfl2]
  rw [if_pos (by norm_num : (((208:ℤ):ℚ)) < (((List.replicate 1000 'a').length : ℕ) : ℚ))]
  rw [if_pos (by norm_num : ((250:ℚ) - ((208:ℤ):ℚ)) < (((List.replicate 200 'b').length : ℕ) : ℚ))]
  simp only [List.take_replicate, Int.toNat_ofNat]
  norm_num
  exact ⟨rfl, rfl⟩

theorem availableForAssets_482700_0 : availableForAssets 482700 0 = 250 := by
  norm_num [availableForAssets, availableTokensForAssets, systemTokensEst, htmlTokensEst,
    maxInputTokens, outputReserve, safetyMargin, promptOverheadTokens]

/- ===================================================================
   Part 6: the claims
   =================================================================== -/

/-- C1 counterexample: for a checklist catalog of size 1 with both input
finding sets empty, the merged result contains 0 findings, not 1 — no
item is synthesized as not-applicable. -/
theorem merge_coverage_counterexample :
    totalFindings (mergeAuditResults emptyPreAuditData emptyClaudeResult) = 0
      ∧ Checklist.size ["item-1"] = 1 ∧ (0 : ℕ) ≠ 1 := by decide

/-- C1 (amended): `mergeAuditResults` does not enforce coverage of a
catalog — it never receives one.  What holds: the merge only adds or
substitutes findings, so the merged result has at least as many findings
as the judgment structure, and with an empty checker finding set the
judgment structure is returned unchanged (in particular, items present in
neither input are simply absent, never synthesized as not-applicable). -/
theorem merge_no_synthesis_and_monotone (pre : PreAuditData)
    (claude : ClaudeResult) (css js : String) :
    totalFindings claude ≤ totalFindings (mergeAuditResults pre claude)
      ∧ mergeAuditResults ⟨[], css, js⟩ claude = claude :=
  ⟨foldl_applyCategory_total_le pre.findings claude, rfl⟩

/-- C2 counterexample: the checker decided check "X" as `FAIL`, the
judgment service echoed "X" with `pass`; the merged verdict is the
service's `pass`, not the checker's `fail`. -/
theorem merge_precedence_counterexample :
    ((getSlot (mergeAuditResults samplePreAuditData sampleClaudeResult).slots
        ("accessibility", "robust")).getD []).map Finding.status = ["pass"]
      ∧ jsToLower sampleDecidedPreFinding.status = "fail"
      ∧ ("pass" : String) ≠ "fail" := by decide

/-- C2 (amended): precedence is the reverse of the claim — when the
deterministic checker returns a concrete verdict for item X and the
judgment service also returns a finding matching X, the service's answer
survives whenever its status is set and is not "na"; the checker's
converted finding is used only when the service's slot status is absent,
empty or "na" (claudeAudit.js 578-583). -/
theorem merge_precedence_service_wins (fs : List Finding) (p : PreFinding)
    (i : ℕ) (f : Finding)
    (hp : p.status ≠ "NEEDS_AI_REVIEW")
    (hidx : fs.findIdx? (findingMatches p) = some i)
    (hget : fs[i]? = some f) :
    mergeOneFinding fs p
      = if statusIsOpen f.status then fs.set i (convertFinding p) else fs := by
  unfold mergeOneFinding
  rw [if_neg (by simp [hp])]
  rw [hidx]
  dsimp only
  rw [hget]

/-- Witness for C2 (amended) at the concrete echo scenario. -/
theorem merge_precedence_service_wins_witness :
    sampleDecidedPreFinding.status ≠ "NEEDS_AI_REVIEW"
      ∧ [sampleEchoFinding].findIdx? (findingMatches sampleDecidedPreFinding) = some 0
      ∧ ([sampleEchoFinding] : List Finding)[0]? = some sampleEchoFinding
      ∧ mergeOneFinding [sampleEchoFinding] sampleDecidedPreFinding
        = if statusIsOpen sampleEchoFinding.status then
            [sampleEchoFinding].set 0 (convertFinding sampleDecidedPreFinding)
          else [sampleEchoFinding] :=
  ⟨by decide, by decide, by decide,
    merge_precedence_service_wins _ _ _ _ (by decide) (by decide) (by decide)⟩

/-- C3 counterexample: with the code's constants (C = 200000, R = 32000,
S = 5000), a fixed prompt of 162900 tokens (sysLen 482700 plus the 2000
overhead), an empty HTML payload and compressed payloads of 1000/200
characters, the budget is 100 tokens = 250 characters; both payloads are
truncated and each notice is appended on top of its allotment, so the
claimed inequality `sum + F + P + R + S ≤ C` fails (the sum reaches
200070.8 tokens). -/
theorem budget_ceiling_counterexample :
    ¬ ((((allocateAssets (availableForAssets 482700 0) (List.replicate 1000 'a')
            (List.replicate 200 'b')).1.length
        + (allocateAssets (availableForAssets 482700 0) (List.replicate 1000 'a')
            (List.replicate 200 'b')).2.length : ℚ) * 2 / 5)
        + ((systemTokensEst 482700 : ℚ) + promptOverheadTokens) + htmlTokensEst 0
        + outputReserve + safetyMargin ≤ 200000) := by
  rw [availableForAssets_482700_0, allocateAssets_250_1000_200]
  have hn1 : cssTruncNotice.length = 91 := by decide
  have hn2 : jsTruncNotice.length = 86 := by decide
  simp only [List.length_append, List.length_replicate, hn1, hn2]
  norm_num [systemTokensEst, htmlTokensEst, outputReserve, safetyMargin,
    promptOverheadTokens]

/-- C3 (amended): the conservation bound holds only up to the truncation
notices, which the code appends on top of the allotments rather than
accounting inside them: whenever the computed token budget is positive,
`sum(final sizes in tokens) + F + P + R + S ≤ C + tokens(notices)`,
where F is the fixed-prompt estimate (system prompt + criteria at 3
chars/token, plus the 2000-token overhead), P the HTML estimate at 2.5
chars/token, R = 32000, S = 5000 and C = 200000. -/
theorem budget_ceiling_with_notices (sysLen htmlLen : ℕ) (css js : List Char)
    (h : 0 < availableTokensForAssets sysLen htmlLen) :
    (((allocateAssets (availableForAssets sysLen htmlLen) css js).1.length
      + (allocateAssets (availableForAssets sysLen htmlLen) css js).2.length : ℚ) * 2 / 5)
      + ((systemTokensEst sysLen : ℚ) + promptOverheadTokens) + htmlTokensEst htmlLen
      + outputReserve + safetyMargin
      ≤ 200000 + (((cssTruncNotice.length + jsTruncNotice.length : ℕ) : ℚ) * 2 / 5) := by
  have havail := availableForAssets_of_pos sysLen htmlLen h
  have hpos : 0 < availableForAssets sysLen htmlLen := by
    rw [havail]
    have h' : (0:ℚ) < ((availableTokensForAssets sysLen htmlLen : ℤ) : ℚ) := by
      exact_mod_cast h
    nlinarith
  have hb : availableForAssets sysLen htmlLen
      = ((163000 : ℚ) - systemTokensEst sysLen - htmlTokensEst htmlLen - 2000) * (5 / 2) := by
    rw [havail, availableTokens_cast]
  have hsum := allocateAssets_sum_le _ css js hpos
  rw [hb] at hsum ⊢
  have hsum2 := mul_le_mul_of_nonneg_right hsum (by norm_num : (0:ℚ) ≤ 2/5)
  simp only [outputReserve, safetyMargin, promptOverheadTokens]
  push_cast at hsum2 ⊢
  nlinarith [hsum2]

/-- Witness for C3 (amended) at the concrete truncation scenario. -/
theorem budget_ceiling_with_notices_witness :
    0 < availableTokensForAssets 482700 0
      ∧ ((((allocateAssets (availableForAssets 482700 0) (List.replicate 1000 'a')
            (List.replicate 200 'b')).1.length
          + (allocateAssets (availableForAssets 482700 0) (List.replicate 1000 'a')
            (List.replicate 200 'b')).2.length : ℚ) * 2 / 5)
          + ((systemTokensEst 482700 : ℚ) + promptOverheadTokens) + htmlTokensEst 0
          + outputReserve + safetyMargin
          ≤ 200000 + (((cssTruncNotice.length + jsTruncNotice.length : ℕ) : ℚ) * 2 / 5)) :=
  ⟨by decide,
    budget_ceiling_with_notices 482700 0 (List.replicate 1000 'a')
      (List.replicate 200 'b') (by decide)⟩

/-- C4 counterexample: for available = 250 and payload sizes 1000/200,
the JS payload's final content is its 42-character remainder allotment
with the notice appended on top — while the claimed formula
`⌊available * size_js / sum⌋` yields 41, so the claim (every payload gets
exactly the floor formula and is truncated to that allotment) fails. -/
theorem alloc_formula_counterexample :
    (allocateAssets 250 (List.replicate 1000 'a') (List.replicate 200 'b')).2.length
        = 42 + jsTruncNotice.length
      ∧ (⌊(250:ℚ) * (((List.replicate 200 'b').length : ℚ)
          / (((List.replicate 1000 'a').length
            + (List.replicate 200 'b').length : ℕ) : ℚ))⌋ : ℤ) = 41
      ∧ (42 : ℕ) ≠ 41 := by
  refine ⟨?_, ?_, by decide⟩
  · rw [allocateAssets_250_1000_200]
    simp only [List.length_append, List.length_replicate]
  · simp only [List.length_replicate]
    rw [Int.floor_eq_iff]
    norm_num

/-- Witness for C4 (amended) at the 250/1000/200 scenario: allotments
208 (floor) and 42 (remainder), each with its notice on top. -/
theorem alloc_floor_remainder_witness :
    ((250:ℚ) < (((List.replicate 1000 'a').length
        + (List.replicate 200 'b').length : ℕ) : ℚ))
      ∧ ((0:ℚ) < 250)
      ∧ (((⌊(250:ℚ) * ((((List.replicate 1000 'a').length : ℕ) : ℚ)
          / (((List.replicate 1000 'a').length
            + (List.replicate 200 'b').length : ℕ) : ℚ))⌋ : ℤ) : ℚ)
        < (((List.replicate 1000 'a').length : ℕ) : ℚ))
      ∧ ((250:ℚ) - ((⌊(250:ℚ) * ((((List.replicate 1000 'a').length : ℕ) : ℚ)
          / (((List.replicate 1000 'a').length
            + (List.replicate 200 'b').length : ℕ) : ℚ))⌋ : ℤ) : ℚ)
        < (((List.replicate 200 'b').length : ℕ) : ℚ))
      ∧ ((allocateAssets 250 (List.replicate 1000 'a') (List.replicate 200 'b')).1.length
          = (⌊(250:ℚ) * ((((List.replicate 1000 'a').length : ℕ) : ℚ)
              / (((List.replicate 1000 'a').length
                + (List.replicate 200 'b').length : ℕ) : ℚ))⌋).toNat
            + cssTruncNotice.length
        ∧ (allocateAssets 250 (List.replicate 1000 'a') (List.replicate 200 'b')).2.length
          = (⌊(250:ℚ) - ((⌊(250:ℚ) * ((((List.replicate 1000 'a').length : ℕ) : ℚ)
              / (((List.replicate 1000 'a').length
                + (List.replicate 200 'b').length : ℕ) : ℚ))⌋ : ℤ) : ℚ)⌋).toNat
            + jsTruncNotice.length) := by
  have hfl : (⌊(250:ℚ) * ((((List.replicate 1000 'a').length : ℕ) : ℚ)
      / (((List.replicate 1000 'a').length
        + (List.replicate 200 'b').length : ℕ) : ℚ))⌋ : ℤ) = 208 := by
    simp only [List.length_replicate]
    rw [Int.floor_eq_iff]
    norm_num
  have h1 : ((250:ℚ) < (((List.replicate 1000 'a').length
      + (List.replicate 200 'b').length : ℕ) : ℚ)) := by norm_num
  have h2 : ((0:ℚ) < 250) := by norm_num
  have h3 : (((⌊(250:ℚ) * ((((List.replicate 1000 'a').length : ℕ) : ℚ)
      / (((List.replicate 1000 'a').length
        + (List.replicate 200 'b').length : ℕ) : ℚ))⌋ : ℤ) : ℚ)
      < (((List.replicate 1000 'a').length : ℕ) : ℚ)) := by
    rw [hfl]
    norm_num
  have h4 : ((250:ℚ) - ((⌊(250:ℚ) * ((((List.replicate 1000 'a').length : ℕ) : ℚ)
      / (((List.replicate 1000 'a').length
        + (List.replicate 200 'b').length : ℕ) : ℚ))⌋ : ℤ) : ℚ)
      < (((List.replicate 200 'b').length : ℕ) : ℚ)) := by
    rw [hfl]
    norm_num
  exact ⟨h1, h2, h3, h4,
    allocateAssets_alloc_lengths 250 (List.replicate 1000 'a')
      (List.replicate 200 'b') h1 h2 h3 h4⟩

/-- C5 counterexample: two audits of the same URL and HTML whose fetched
CSS differs (so the effective compressed payload shown to the judgment
service differs byte-for-byte) share the same cache key: the second call
is a cache hit that returns the first call's stored result without a
second judgment-service invocation — the claim that any effective-payload
difference produces a miss fails. -/
theorem cache_key_counterexample :
    compressCSS samplePreCSS1.rawCSS.data ≠ compressCSS samplePreCSS2.rawCSS.data
      ∧ (runClaudeAuditModel (runClaudeAuditModel [] "https://example.test" "<p>hi</p>"
          (some samplePreCSS1) emptyClaudeResult).cache "https://example.test" "<p>hi</p>"
          (some samplePreCSS2) sampleClaudeResult).invokedClaude = false
      ∧ (runClaudeAuditModel (runClaudeAuditModel [] "https://example.test" "<p>hi</p>"
          (some samplePreCSS1) emptyClaudeResult).cache "https://example.test" "<p>hi</p>"
          (some samplePreCSS2) sampleClaudeResult).result
        = (runClaudeAuditModel [] "https://example.test" "<p>hi</p>"
          (some samplePreCSS1) emptyClaudeResult).result := by decide

/-- C6 counterexample: when the checker process fails, the pipeline emits
a terminal error event and no complete result — the audit is aborted, and
no all-undecided degradation happens. -/
theorem checker_failure_counterexample :
    handleAudit (.error "checker crashed") emptyClaudeResult
        "https://example.test" "<p>hi</p>" []
      = [.progress 1, .progress 2,
         .error "Audit error: Pre-audit failed: checker crashed"] := by decide

/-- C6 (amended): on checker failure `runPreAudit` rethrows
(`Pre-audit failed: ...`, preAudit.js 70) and the handler's single
try/catch emits one terminal error event (server.js 111-116): the
judgment stage is never reached, no items are re-classified as undecided,
and no complete report is produced — the audit is aborted, not degraded. -/
theorem checker_failure_aborts (msg : String) (resp : ClaudeResult)
    (url html : String) (cache : AuditCache) :
    handleAudit (.error msg) resp url html cache
      = [.progress 1, .progress 2,
         .error ("Audit error: " ++ ("Pre-audit failed: " ++ msg))] := rfl

/-- C7 counterexample: on the input "a\n␣␣\nb" one compression pass
leaves "a\n\nb" (the blank-line pass runs after newline collapsing), and
a second pass collapses the double newline to "a\nb" — so
`compress (compress x) ≠ compress x` for both compressors. -/
theorem compress_idempotence_counterexample :
    compressCSS (compressCSS "a\n  \nb".data) ≠ compressCSS "a\n  \nb".data
      ∧ compressJS (compressJS "a\n  \nb".data) ≠ compressJS "a\n  \nb".data := by
  decide

/-- C7 (amended): neither compressor is idempotent (a whitespace-only
line collapses further on a second pass); what holds for repeated
application is monotonicity for the JS compressor — a second application
never lengthens the output. -/
theorem compressJS_twice_length_le (js : List Char) :
    (compressJS (compressJS js)).length ≤ (compressJS js).length :=
  compressJS_length_le (compressJS js)

/-- C8 counterexample: `compressCSS` can lengthen its input — the
keyframes-collapsing pass rewrites the 14-character input
`@keyframes x\x7b\x7d` to the 26-character
`@keyframes x \x7b /* ... */ \x7d`. -/
theorem compress_length_counterexample :
    ("@keyframes x\x7b\x7d".data).length = 14
      ∧ (compressCSS "@keyframes x\x7b\x7d".data).length = 26
      ∧ ¬ ((compressCSS "@keyframes x\x7b\x7d".data).length
          ≤ ("@keyframes x\x7b\x7d".data).length) := by decide

/-- C8 (amended): the length bound holds for the JS compressor on every
input; the CSS compressor violates it (the keyframes placeholder can
exceed what it replaces). -/
theorem compressJS_output_le_input (js : List Char) :
    (compressJS js).length ≤ js.length :=
  compressJS_length_le js

/-- C9 counterexample: when the fixed prompt plus primary payload exceed
the ceiling minus reserves (negative token budget), the truncation branch
is skipped entirely and the full secondary payload is still sent — not a
zero budget with content excluded, and no warning flag exists. -/
theorem zero_budget_counterexample :
    availableTokensForAssets 489000 0 < 0
      ∧ allocateAssets (availableForAssets 489000 0) "body".data []
        = ("body".data, [])
      ∧ "body".data ≠ [] := by
  refine ⟨by decide, ?_, by decide⟩
  rw [availableForAssets_eq_zero 489000 0 (by decide)]
  exact allocateAssets_nonpos 0 _ _ (le_refl 0)

/-- C9 (amended): when `F + P` exceeds `C - R - S` (negative token
budget), `availableForAssets` is clamped to zero and the guard
`availableForAssets > 0` makes the code skip truncation altogether: both
secondary payloads pass through in full (claudeAudit.js 341 and 404);
no warning flag is set and no content is withheld.  The primary HTML
payload is never transformed anywhere in the pipeline. -/
theorem zero_budget_passthrough (sysLen htmlLen : ℕ) (css js : List Char)
    (h : availableTokensForAssets sysLen htmlLen < 0) :
    availableForAssets sysLen htmlLen = 0
      ∧ allocateAssets (availableForAssets sysLen htmlLen) css js = (css, js) := by
  have h0 := availableForAssets_eq_zero sysLen htmlLen h
  refine ⟨h0, ?_⟩
  rw [h0]
  exact allocateAssets_nonpos 0 css js (le_refl 0)

/-- Witness for C9 (amended). -/
theorem zero_budget_passthrough_witness :
    availableTokensForAssets 489000 0 < 0
      ∧ (availableForAssets 489000 0 = 0
        ∧ allocateAssets (availableForAssets 489000 0) "main".data []
          = ("main".data, [])) :=
  ⟨by decide, zero_budget_passthrough 489000 0 "main".data [] (by decide)⟩

/-- C10: the merge is a frame for the judgment structure's decided
findings — every finding already present with a set status other than
"na" is left unchanged at its position, all non-category fields pass
through unmodified, and category arrays only grow (merging appends new
findings or replaces ones whose status is absent, empty or "na"). -/
theorem merge_frame_preserves_decided (pre : PreAuditData)
    (claude : ClaudeResult) (key : String × String) (i : ℕ) (f : Finding)
    (hf : ((getSlot claude.slots key).getD [])[i]? = some f)
    (hs1 : f.status ≠ "") (hs2 : f.status ≠ "na") :
    ((getSlot (mergeAuditResults pre claude).slots key).getD [])[i]? = some f
      ∧ (mergeAuditResults pre claude).rest = claude.rest
      ∧ ((getSlot claude.slots key).getD []).length
          ≤ ((getSlot (mergeAuditResults pre claude).slots key).getD []).length := by
  have hso : statusIsOpen f.status = false := by
    simp [statusIsOpen, hs1, hs2]
  exact ⟨foldl_applyCategory_getElem? pre.findings claude key i f hf hso,
    foldl_applyCategory_rest pre.findings claude,
    foldl_applyCategory_slotLen_le pre.findings claude key⟩

/-- Witness for C10 at the concrete echo scenario. -/
theorem merge_frame_preserves_decided_witness :
    ((getSlot sampleClaudeResult.slots ("accessibility", "robust")).getD [])[0]?
        = some sampleEchoFinding
      ∧ sampleEchoFinding.status ≠ ""
      ∧ sampleEchoFinding.status ≠ "na"
      ∧ (((getSlot (mergeAuditResults samplePreAuditData sampleClaudeResult).slots
          ("accessibility", "robust")).getD [])[0]? = some sampleEchoFinding
        ∧ (mergeAuditResults samplePreAuditData sampleClaudeResult).rest
          = sampleClaudeResult.rest
        ∧ ((getSlot sampleClaudeResult.slots ("accessibility", "robust")).getD []).length
          ≤ ((getSlot (mergeAuditResults samplePreAuditData sampleClaudeResult).slots
            ("accessibility", "robust")).getD []).length) :=
  ⟨by decide, by decide, by decide,
    merge_frame_preserves_decided samplePreAuditData sampleClaudeResult
      ("accessibility", "robust") 0 sampleEchoFinding
      (by decide) (by decide) (by decide)⟩
